import Mathlib

/-!
Verification of the coaching-call presentation repository.

The embedding covers the two components the spec describes:

* the Content Loader, the HTTP GET handler in `src/app/api/content/route.ts`,
  modelled as a pure function `GET` over an abstract filesystem (a map from
  normalized path-segment lists to optional file contents) together with a
  faithful model of Node's `path.join` segment normalization; and

* the Presentation Navigator of `src/app/presentation/page.tsx`, modelled as
  a state machine over `NavState`/`AppState` with the operations
  `handleNext`, `handlePrev`, `handleFinish` and the content-fetch effect.

Strings are handled through their character lists where the path machinery
needs structural recursion.
-/

/-- Path segments are character lists (pieces of a path between slashes). -/
abbrev Seg := List Char

/-- An abstract filesystem: a map from normalized absolute paths (as segment
lists) to the text content of the file there, `none` when no readable file
exists at that path.  Models `fs.readFile` with its error case. -/
abbrev FsT := List Seg → Option String

/-- Split a character list on `'/'`, keeping empty segments (they are
discarded later by normalization, as in Node's `path.normalize`). -/
def splitSlash : List Char → List Seg
  | [] => [[]]
  | c :: rest =>
    if c = '/' then [] :: splitSlash rest
    else
      match splitSlash rest with
      | [] => [[c]]
      | s :: ss => (c :: s) :: ss

/-- Whether a character list contains two consecutive dots, the model of
JavaScript's `filePath.includes('..')` substring test. -/
def hasDotDot : List Char → Bool
  | [] => false
  | [_] => false
  | a :: b :: rest => (a = '.' && b = '.') || hasDotDot (b :: rest)

/-- Segments kept by normalization: not empty and not `"."`. -/
def keepSeg (s : Seg) : Bool := !(s = ([] : Seg) || s = ['.'])

/-- One step of Node `path` segment normalization over the reversed output
built so far: empty and `"."` segments are dropped, `".."` pops the previous
segment when one is available (and is not itself `".."`); at the root a
`".."` is discarded on an absolute path (`ab = true`) and kept otherwise. -/
def normStep (ab : Bool) (acc : List Seg) (seg : Seg) : List Seg :=
  if seg = ([] : Seg) ∨ seg = ['.'] then acc
  else if seg = ['.', '.'] then
    match acc with
    | [] => if ab then [] else [['.', '.']]
    | a :: as' => if a = ['.', '.'] then seg :: acc else as'
  else seg :: acc

/-- Node `path` segment normalization (the core of `path.join`), folding
`normStep` over the segments; `acc` holds output built so far, reversed. -/
def normSegs (ab : Bool) (acc : List Seg) (l : List Seg) : List Seg :=
  (l.foldl (normStep ab) acc).reverse

/-- The full path read by the Content Loader:
`path.join(process.cwd(), 'public', filePath)` as a normalized segment list
(the working directory is absolute, so `ab = true`). -/
def resolveSegs (cwd fp : String) : List Seg :=
  normSegs true [] (splitSlash cwd.data ++ ["public".data] ++ splitSlash fp.data)

/-- The three possible responses of `GET /api/content`:
400 with body error "Invalid path", 404 with body error "File not found",
or 200 with the content under a `content` key. -/
inductive ApiResult
  | invalidPath
  | notFound
  | ok (content : String)
deriving DecidableEq, Repr

/-- The handler of `src/app/api/content/route.ts`: `pathParam` is the decoded
`path` query parameter (`none` when absent).  The guard rejects a missing or
empty parameter (`!filePath` is truthy for both `null` and `""`) and any
value containing the substring `".."`; otherwise the file at
`path.join(cwd, 'public', filePath)` is read, a failed read answering 404. -/
def GET (fs : FsT) (cwd : String) (pathParam : Option String) : ApiResult :=
  match pathParam with
  | none => ApiResult.invalidPath
  | some fp =>
    if fp = "" ∨ hasDotDot fp.data then ApiResult.invalidPath
    else
      match fs (resolveSegs cwd fp) with
      | some c => ApiResult.ok c
      | none => ApiResult.notFound

/-- One entry of the build-time section list: a display title and the path
requested from the Content Loader. -/
structure SectionEntry where
  title : String
  path : String
deriving DecidableEq, Repr

/-- The fixed, ordered section list of `src/app/presentation/page.tsx`
(lines 11-74), length 15. -/
def sectionFiles : List SectionEntry :=
  [ { title := "1: Semantic HTML & ARIA Best Practices",
      path := "/content/Section1.md" },
    { title := "2: CSS for Accessibility & Performance",
      path := "/content/Section2.md" },
    { title := "3: Interactive Elements & State Management",
      path := "/content/Section3.md" },
    { title := "4: Optimizing Performance for Accessibility",
      path := "/content/Section4.md" },
    { title := "5: Building Keyboard-Accessible Components",
      path := "/content/Section5.md" },
    { title := "6: Enhancing Form Accessibility with ARIA & Validation",
      path := "/content/Section6.md" },
    { title := "7: Creating Accessible & Performant Data Tables",
      path := "/content/Section7.md" },
    { title := "8: Accessible & Performant Modals in React",
      path := "/content/Section8.md" },
    { title := "9: Creating Accessible & Performant Navigation Menus",
      path := "/content/Section9.md" },
    { title := "10: Building Accessible & Performant Forms in React",
      path := "/content/Section10.md" },
    { title := "11: Implementing Dark Mode with Accessibility in React",
      path := "/content/Section11.md" },
    { title := "12: Enhancing Performance with Lazy Loading and Code Splitting in React",
      path := "/content/Section12.md" },
    { title := "13: Optimizing Accessibility with Forms and Inputs",
      path := "/content/Section13.md" },
    { title := "14: Testing React Components for Accessibility and Performance",
      path := "/content/Section14.md" },
    { title := "15: Optimizing Rendering, Transitions, and Effects for Blazing-Fast Performance",
      path := "/content/Section15.md" } ]

/-- The Markdown fixture files present under `public/` in the repository,
as paths relative to the `public` directory: the eleven sections whose
fixture text the repository carries (1, 2, 3, 4, 5, 7, 8, 12, 13, 14, 15);
sections 6, 9, 10 and 11 have no fixture file of their own. -/
def publicPaths : List String :=
  [ "content/Section1.md",
    "content/Section2.md",
    "content/Section3.md",
    "content/Section4.md",
    "content/Section5.md",
    "content/Section7.md",
    "content/Section8.md",
    "content/Section12.md",
    "content/Section13.md",
    "content/Section14.md",
    "content/Section15.md" ]

/-- The repository's filesystem rooted at working directory `cwd`: exactly
the fixture files of `publicPaths` exist under `public/`; `text` gives the
(opaque) Markdown text of each, keyed by its relative path. -/
def repoFS (text : String → String) (cwd : String) : FsT :=
  fun k => (publicPaths.find? (fun p => resolveSegs cwd p == k)).map text

/-- The navigator's state together with the window scroll position it
manipulates: `currentIndex`, the displayed Markdown `content` and the
`loading` flag come from the component's `useState` hooks; `scrollY` models
the vertical scroll position that `window.scrollTo(0, 0)` resets. -/
structure NavState where
  currentIndex : Int
  content : String
  loading : Bool
  scrollY : Int
deriving DecidableEq, Repr

/-- The page state: the navigator component state plus the current route
(`router.push` changes the route). -/
structure AppState where
  nav : NavState
  route : String
deriving DecidableEq, Repr

/-- The component's initial state on mount: index 0, empty content, not
loading, at route `/presentation`. -/
def initState : AppState :=
  { nav := { currentIndex := 0, content := "", loading := false, scrollY := 0 },
    route := "/presentation" }

/-- `handleNext` (page.tsx lines 121-126): increment `currentIndex` when it
is below `sectionFiles.length - 1`, then always scroll to the top. -/
def handleNext (s : NavState) : NavState :=
  let s1 := if s.currentIndex < (sectionFiles.length : Int) - 1 then
              { s with currentIndex := s.currentIndex + 1 }
            else s
  { s1 with scrollY := 0 }

/-- `handlePrev` (page.tsx lines 128-131): decrement `currentIndex` when it
is above 0, then always scroll to the top. -/
def handlePrev (s : NavState) : NavState :=
  let s1 := if 0 < s.currentIndex then
              { s with currentIndex := s.currentIndex - 1 }
            else s
  { s1 with scrollY := 0 }

/-- `handleFinish` (page.tsx lines 133-135): `router.push("/thank-you")`;
the navigator state is untouched. -/
def handleFinish (a : AppState) : AppState :=
  { a with route := "/thank-you" }

/-- Whether the Finish button is rendered (page.tsx line 204): the ternary
shows it exactly when `currentIndex === sectionFiles.length - 1`, otherwise
the Next button is shown. -/
def finishRendered (s : NavState) : Bool :=
  s.currentIndex == (sectionFiles.length : Int) - 1

/-- The three user-visible navigation operations. -/
inductive NavOp
  | next
  | prev
  | finish
deriving DecidableEq, Repr

/-- Apply one navigation operation to the page state. -/
def applyOp : NavOp → AppState → AppState
  | NavOp.next, a => { a with nav := handleNext a.nav }
  | NavOp.prev, a => { a with nav := handlePrev a.nav }
  | NavOp.finish, a => handleFinish a

/-- Run a sequence of navigation operations from a starting state. -/
def runOps (ops : List NavOp) (a : AppState) : AppState :=
  ops.foldl (fun st op => applyOp op st) a

/-- The placeholder Markdown shown when content cannot be loaded
(page.tsx lines 95-97 and 103-105). -/
def errorPlaceholder : String :=
  "# Error Loading Content\n\nSorry, the content could not be loaded."

/-- The outcome of one fetch to the Content Loader as seen by the client:
either the transport fails (network error, unparsable body — the `catch`
branch) or a JSON response arrives, which is one of the three `ApiResult`
shapes the server can produce. -/
inductive FetchResult
  | fail
  | resp (r : ApiResult)
deriving DecidableEq, Repr

/-- The content string a resolved fetch leaves on screen: the `content`
field on a 200 response, and the fixed placeholder when the transport
failed or the body carried an `error` field (page.tsx lines 91-106). -/
def contentOfFetch : FetchResult → String
  | FetchResult.resp (ApiResult.ok c) => c
  | FetchResult.resp ApiResult.invalidPath => errorPlaceholder
  | FetchResult.resp ApiResult.notFound => errorPlaceholder
  | FetchResult.fail => errorPlaceholder

/-- Apply a resolved fetch to the navigator state: only `content` is set
(`setContent`), everything else is untouched; no case raises. -/
def applyFetch (s : NavState) (r : FetchResult) : NavState :=
  { s with content := contentOfFetch r }

/-- The content the effect of page.tsx lines 82-110 computes for index `i`
against server filesystem `fs` at working directory `cwd`, assuming the
transport itself succeeds: the effect requests
`/api/content?path=encodeURIComponent(sectionFiles[i].path)` (the server
decodes the parameter back to `sectionFiles[i].path`) and stores the 200
content, or the placeholder on an error response.  An out-of-range index
makes `sectionFiles[currentIndex].path` throw inside the `try`, landing in
the same `catch` placeholder. -/
def loadContent (fs : FsT) (cwd : String) (i : Int) : String :=
  match sectionFiles.get? i.toNat with
  | none => errorPlaceholder
  | some e => contentOfFetch (FetchResult.resp (GET fs cwd (some e.path)))

/-- The fetch effect run to completion for the current index (deterministic
transport-success case). -/
def settleEffect (fs : FsT) (cwd : String) (s : NavState) : NavState :=
  { s with content := loadContent fs cwd s.currentIndex }

/-- One full navigation step as the user observes it when each fetch
completes before the next action: apply the operation, then let its fetch
effect settle. -/
def navStep (fs : FsT) (cwd : String) (op : NavOp) (a : AppState) : AppState :=
  let a1 := applyOp op a
  { a1 with nav := settleEffect fs cwd a1.nav }

/-! ### Path lemmas -/

/-- The first segment produced by `splitSlash` is a prefix of the input. -/
theorem splitSlash_head_pre :
    ∀ (l : List Char) (s : Seg) (ss : List Seg),
      splitSlash l = s :: ss → ∃ t, l = s ++ t := by
  intro l
  induction l with
  | nil =>
    intro s ss h
    simp only [splitSlash] at h
    exact ⟨[], by simp [(List.cons.injEq .. ▸ h).1.symm]⟩
  | cons c rest ih =>
    intro s ss h
    simp only [splitSlash] at h
    by_cases hc : c = '/'
    · rw [if_pos hc] at h
      have hs : s = [] := ((List.cons.injEq .. ▸ h).1).symm
      exact ⟨c :: rest, by simp [hs]⟩
    · rw [if_neg hc] at h
      cases hsp : splitSlash rest with
      | nil =>
        rw [hsp] at h
        have hs : s = [c] := ((List.cons.injEq .. ▸ h).1).symm
        exact ⟨rest, by simp [hs]⟩
      | cons s0 ss0 =>
        rw [hsp] at h
        have hs : s = c :: s0 := ((List.cons.injEq .. ▸ h).1).symm
        obtain ⟨t, ht⟩ := ih s0 ss0 hsp
        exact ⟨t, by simp [hs, ht]⟩

/-- `hasDotDot` is preserved by consing a character in front. -/
theorem hasDotDot_cons (c : Char) (l : List Char) (h : hasDotDot l = true) :
    hasDotDot (c :: l) = true := by
  cases l with
  | nil => simp [hasDotDot] at h
  | cons b t => simp only [hasDotDot] at h ⊢ ; simp [h]

/-- If `".."` is one of the slash-separated segments of `l`, then `l`
contains two consecutive dots. -/
theorem dotdot_seg_hasDotDot :
    ∀ l : List Char, ['.', '.'] ∈ splitSlash l → hasDotDot l = true := by
  intro l
  induction l with
  | nil =>
    intro h
    simp only [splitSlash, List.mem_singleton] at h
    exact absurd h (by decide)
  | cons c rest ih =>
    intro h
    simp only [splitSlash] at h
    by_cases hc : c = '/'
    · rw [if_pos hc] at h
      rcases List.mem_cons.mp h with h1 | h2
      · exact absurd h1 (by decide)
      · exact hasDotDot_cons c rest (ih h2)
    · rw [if_neg hc] at h
      cases hsp : splitSlash rest with
      | nil =>
        rw [hsp] at h
        rcases List.mem_cons.mp h with h1 | h1
        · exact absurd h1 (by simp)
        · exact absurd h1 (by simp)
      | cons s0 ss0 =>
        rw [hsp] at h
        rcases List.mem_cons.mp h with h1 | h2
        · obtain ⟨hc', hs0⟩ := List.cons.injEq .. ▸ h1
          obtain ⟨t, ht⟩ := splitSlash_head_pre rest s0 ss0 hsp
          subst ht
          rw [← hs0, ← hc']
          simp [hasDotDot]
        · exact hasDotDot_cons c rest (ih (hsp ▸ List.mem_cons_of_mem s0 h2))

/-- Folding `normStep` over segments none of which is `".."` just filters
out the dropped segments, reversed in front of the accumulator. -/
theorem foldl_normStep_no_dotdot :
    ∀ (l : List Seg) (acc : List Seg) (ab : Bool),
      (∀ seg ∈ l, seg ≠ ['.', '.']) →
      l.foldl (normStep ab) acc = (l.filter keepSeg).reverse ++ acc := by
  intro l
  induction l with
  | nil => intro acc ab _; simp
  | cons seg rest ih =>
    intro acc ab h
    have hseg : seg ≠ ['.', '.'] := h seg (List.mem_cons_self _ _)
    have hrest : ∀ s ∈ rest, s ≠ ['.', '.'] :=
      fun s hs => h s (List.mem_cons_of_mem _ hs)
    simp only [List.foldl_cons, List.filter_cons]
    by_cases h1 : seg = ([] : Seg) ∨ seg = ['.']
    · have hk : keepSeg seg = false := by
        rcases h1 with h1 | h1 <;> simp [keepSeg, h1]
      rw [hk]
      have hstep : normStep ab acc seg = acc := by
        simp [normStep, if_pos h1]
      rw [hstep, ih acc ab hrest]
      simp
    · have hk : keepSeg seg = true := by
        simp only [keepSeg, Bool.not_eq_true']
        push_neg at h1
        simp [h1.1, h1.2]
      rw [hk]
      have hstep : normStep ab acc seg = seg :: acc := by
        simp [normStep, if_neg h1, if_neg hseg]
      rw [hstep, ih (seg :: acc) ab hrest]
      simp

/-- Resolution of a guard-accepted path: when `fp` contains no `".."`, the
full path the Content Loader reads is the normalized working directory,
then `public`, then the kept segments of `fp` — so it always lies inside
the `public` directory, whatever `fp` (even one starting with `/`). -/
theorem resolveSegs_no_dotdot (cwd fp : String)
    (hdd : hasDotDot fp.data = false) :
    resolveSegs cwd fp =
      normSegs true [] (splitSlash cwd.data) ++
        "public".data :: (splitSlash fp.data).filter keepSeg := by
  have hfp : ∀ seg ∈ splitSlash fp.data, seg ≠ ['.', '.'] := by
    intro seg hs hcon
    rw [hcon] at hs
    rw [dotdot_seg_hasDotDot fp.data hs] at hdd
    exact Bool.true_eq_false ▸ hdd
  have hall : ∀ seg ∈ "public".data :: splitSlash fp.data, seg ≠ ['.', '.'] := by
    intro seg hs
    rcases List.mem_cons.mp hs with h1 | h2
    · rw [h1]; decide
    · exact hfp seg h2
  unfold resolveSegs normSegs
  rw [List.append_assoc, List.foldl_append, List.singleton_append,
    foldl_normStep_no_dotdot _ _ _ hall]
  have hkpub : keepSeg "public".data = true := by decide
  simp [List.filter_cons, hkpub]

/-! ### Claim theorems -/

/-- C9: every path string that passes the Content Loader's guard (non-empty,
no `".."` substring) resolves, after `path.join` normalization, to a path
inside the `public` directory of the working directory: the resolved
segment list extends the normalized working directory followed by the
`public` segment, even for paths beginning with `/`. -/
theorem c9_resolved_in_public (cwd fp : String)
    (hne : fp ≠ "") (hdd : hasDotDot fp.data = false) :
    ∃ rest : List Seg,
      resolveSegs cwd fp =
        normSegs true [] (splitSlash cwd.data) ++ "public".data :: rest := by
  exact ⟨(splitSlash fp.data).filter keepSeg, resolveSegs_no_dotdot cwd fp hdd⟩

/-- Witness for C9 at the working directory `/app` and the leading-slash
request path of section 1. -/
theorem c9_resolved_in_public_witness :
    ∃ rest : List Seg,
      resolveSegs "/app" "/content/Section1.md" =
        normSegs true [] (splitSlash "/app".data) ++ "public".data :: rest :=
  c9_resolved_in_public "/app" "/content/Section1.md" (by decide) (by decide)

/-- C10: a `path` query parameter that is present but equal to the empty
string is rejected with 400 Invalid path, exactly like an absent parameter,
although the empty string does not contain `".."`. -/
theorem c10_empty_path_invalid :
    ∀ (fs : FsT) (cwd : String),
      GET fs cwd (some "") = ApiResult.invalidPath
      ∧ GET fs cwd none = ApiResult.invalidPath
      ∧ hasDotDot "".data = false := by
  intro fs cwd
  exact ⟨rfl, rfl, rfl⟩

/-- C1 counterexample: with every file readable, the present, empty-string
`path` parameter contains no `".."` and is not absent, yet the handler
answers 400 Invalid path where the claim requires a 200. -/
theorem c1_empty_path_counterexample :
    GET (fun _ => some "x") "/app" (some "") = ApiResult.invalidPath
    ∧ some "" ≠ (none : Option String)
    ∧ hasDotDot "".data = false
    ∧ ∀ k, (fun _ => some "x" : FsT) k ≠ none := by
  refine ⟨rfl, by simp, rfl, fun k => by simp⟩

/-- C1 amended: the response of GET /api/content is exactly one of 400
Invalid path — if and only if the `path` parameter is absent, empty, or
contains the substring `".."` — otherwise 404 File not found if and only if
the resolved file cannot be read, otherwise 200 with the file's content. -/
theorem c1_response_trichotomy_amended :
    ∀ (fs : FsT) (cwd : String) (p : Option String),
      (GET fs cwd p = ApiResult.invalidPath ↔
        p = none ∨ p = some "" ∨ ∃ s, p = some s ∧ hasDotDot s.data = true)
      ∧ (GET fs cwd p = ApiResult.notFound ↔
        ∃ s, p = some s ∧ s ≠ "" ∧ hasDotDot s.data = false ∧
          fs (resolveSegs cwd s) = none)
      ∧ (∀ c, GET fs cwd p = ApiResult.ok c ↔
        ∃ s, p = some s ∧ s ≠ "" ∧ hasDotDot s.data = false ∧
          fs (resolveSegs cwd s) = some c) := by
  intro fs cwd p
  rcases p with _ | s
  · refine ⟨by simp [GET], by simp [GET], fun c => by simp [GET]⟩
  · by_cases hg : s = "" ∨ hasDotDot s.data
    · have hG : GET fs cwd (some s) = ApiResult.invalidPath := by
        simp [GET, if_pos hg]
      refine ⟨?_, ?_, fun c => ?_⟩
      · simp only [hG, true_iff]
        rcases hg with hg | hg
        · exact Or.inr (Or.inl (by rw [hg]))
        · exact Or.inr (Or.inr ⟨s, rfl, hg⟩)
      · simp only [hG]
        constructor
        · intro h; exact absurd h (by simp)
        · rintro ⟨t, ht, hne, hdd, _⟩
          obtain rfl : s = t := Option.some.injEq .. ▸ ht
          rcases hg with hg | hg
          · exact absurd hg hne
          · rw [hg] at hdd; exact absurd hdd (by simp)
      · simp only [hG]
        constructor
        · intro h; exact absurd h (by simp)
        · rintro ⟨t, ht, hne, hdd, _⟩
          obtain rfl : s = t := Option.some.injEq .. ▸ ht
          rcases hg with hg | hg
          · exact absurd hg hne
          · rw [hg] at hdd; exact absurd hdd (by simp)
    · push_neg at hg
      obtain ⟨hne, hdd⟩ := hg
      have hdd' : hasDotDot s.data = false := by
        simpa using hdd
      have hG : GET fs cwd (some s) =
          match fs (resolveSegs cwd s) with
          | some c => ApiResult.ok c
          | none => ApiResult.notFound := by
        simp [GET, if_neg (not_or.mpr ⟨hne, hdd⟩)]
      refine ⟨?_, ?_, fun c => ?_⟩
      · rw [hG]
        constructor
        · intro h
          rcases hfs : fs (resolveSegs cwd s) with _ | c <;> rw [hfs] at h <;>
            exact absurd h (by simp)
        · rintro (h | h | ⟨t, ht, hddt⟩)
          · exact absurd h (by simp)
          · obtain rfl : s = "" := Option.some.injEq .. ▸ h
            exact absurd rfl hne
          · obtain rfl : s = t := Option.some.injEq .. ▸ ht
            rw [hddt] at hdd'
            exact absurd hdd' (by simp)
      · rw [hG]
        constructor
        · intro h
          rcases hfs : fs (resolveSegs cwd s) with _ | c
          · exact ⟨s, rfl, hne, hdd', hfs⟩
          · rw [hfs] at h; exact absurd h (by simp)
        · rintro ⟨t, ht, _, _, hfs⟩
          obtain rfl : s = t := Option.some.injEq .. ▸ ht
          rw [hfs]
      · rw [hG]
        constructor
        · intro h
          rcases hfs : fs (resolveSegs cwd s) with _ | c'
          · rw [hfs] at h; exact absurd h (by simp)
          · rw [hfs] at h
            obtain rfl : c' = c := by
              have := ApiResult.ok.injEq .. ▸ h
              simpa using this
            exact ⟨s, rfl, hne, hdd', hfs⟩
        · rintro ⟨t, ht, _, _, hfs⟩
          obtain rfl : s = t := Option.some.injEq .. ▸ ht
          rw [hfs]

/-- C2 counterexample: `sectionFiles` has 15 entries but the repository's
`public/` tree holds no fixture file for index 5 (`/content/Section6.md`),
so the Content Loader answers 404 there instead of the file's bytes. -/
theorem c2_missing_fixture_counterexample :
    sectionFiles.length = 15
    ∧ (sectionFiles.get? 5).map SectionEntry.path = some "/content/Section6.md"
    ∧ repoFS (fun _ => "") "/app" (resolveSegs "/app" "/content/Section6.md") = none
    ∧ GET (repoFS (fun _ => "") "/app") "/app" (some "/content/Section6.md") =
        ApiResult.notFound := by
  exact ⟨rfl, rfl, rfl, rfl⟩

/-- C2 amended: a guard-accepted path whose resolved file is readable is
answered 200 with the stored text unmodified under the `content` key; on
the repository's filesystem this holds for the eleven section indexes
whose fixture file exists under `public/` (0, 1, 2, 3, 4, 6, 7, 11, 12,
13, 14), each returning exactly the stored fixture text, while the
remaining four section paths (indexes 5, 8, 9, 10) have no fixture file in
the repository. -/
theorem c2_content_passthrough_amended :
    (∀ (fs : FsT) (cwd : String) (fp : String) (c : String),
      fp ≠ "" → hasDotDot fp.data = false →
      fs (resolveSegs cwd fp) = some c →
      GET fs cwd (some fp) = ApiResult.ok c)
    ∧ (∀ text : String → String,
        ∀ pr ∈ [((0 : Nat), "content/Section1.md"),
                (1, "content/Section2.md"),
                (2, "content/Section3.md"),
                (3, "content/Section4.md"),
                (4, "content/Section5.md"),
                (6, "content/Section7.md"),
                (7, "content/Section8.md"),
                (11, "content/Section12.md"),
                (12, "content/Section13.md"),
                (13, "content/Section14.md"),
                (14, "content/Section15.md")],
          (sectionFiles.get? pr.1).map SectionEntry.path = some ("/" ++ pr.2)
          ∧ GET (repoFS text "/app") "/app" (some ("/" ++ pr.2)) =
              ApiResult.ok (text pr.2)) := by
  constructor
  · intro fs cwd fp c hne hdd hfs
    have hguard : ¬(fp = "" ∨ hasDotDot fp.data) := by
      rintro (h | h)
      · exact hne h
      · rw [h] at hdd; exact absurd hdd (by simp)
    simp [GET, if_neg hguard, hfs]
  · intro text pr hpr
    fin_cases hpr <;> exact ⟨rfl, rfl⟩

/-- Witness for C2's amended theorem: a readable file behind a clean path is
served back verbatim, both on an arbitrary filesystem and on the
repository's fixture filesystem. -/
theorem c2_content_passthrough_witness :
    GET (fun _ => some "hello") "/r" (some "/notes.md") = ApiResult.ok "hello"
    ∧ GET (repoFS (fun p => p) "/app") "/app" (some "/content/Section1.md") =
        ApiResult.ok "content/Section1.md" := by
  constructor
  · exact c2_content_passthrough_amended.1 (fun _ => some "hello") "/r" "/notes.md"
      "hello" (by decide) (by decide) rfl
  · exact (c2_content_passthrough_amended.2 (fun p => p)
      ((0 : Nat), "content/Section1.md") (by simp)).2

/-- C3: `handleNext` increments `currentIndex` exactly when it is below
`N - 1` and leaves it unchanged otherwise (in particular at `N - 1`);
`handlePrev` decrements exactly when it is above 0 and leaves it unchanged
at 0; both always reset the scroll position to the top, also in the no-op
cases. -/
theorem c3_advance_retreat_scroll :
    ∀ s : NavState,
      ((handleNext s).currentIndex =
        if s.currentIndex < (sectionFiles.length : Int) - 1 then
          s.currentIndex + 1
        else s.currentIndex)
      ∧ ((handlePrev s).currentIndex =
        if 0 < s.currentIndex then s.currentIndex - 1 else s.currentIndex)
      ∧ (handleNext s).scrollY = 0
      ∧ (handlePrev s).scrollY = 0 := by
  intro s
  refine ⟨?_, ?_, rfl, rfl⟩
  · by_cases h : s.currentIndex < (sectionFiles.length : Int) - 1 <;>
      simp [handleNext, h]
  · by_cases h : 0 < s.currentIndex <;> simp [handlePrev, h]

/-- C4: the Finish button is rendered exactly when `currentIndex` equals
`N - 1`; invoking `handleFinish` routes to the thank-you view and leaves
the whole navigator state (index included) unchanged. -/
theorem c4_finish_reachability_frame :
    ∀ a : AppState,
      (finishRendered a.nav = true ↔
        a.nav.currentIndex = (sectionFiles.length : Int) - 1)
      ∧ (handleFinish a).route = "/thank-you"
      ∧ (handleFinish a).nav = a.nav := by
  intro a
  refine ⟨?_, rfl, rfl⟩
  simp [finishRendered]

/-- The index bound preserved by every navigation operation. -/
theorem applyOp_index_bounds (op : NavOp) (a : AppState)
    (h0 : 0 ≤ a.nav.currentIndex)
    (h1 : a.nav.currentIndex ≤ (sectionFiles.length : Int) - 1) :
    0 ≤ (applyOp op a).nav.currentIndex
    ∧ (applyOp op a).nav.currentIndex ≤ (sectionFiles.length : Int) - 1 := by
  cases op with
  | next =>
    by_cases h : a.nav.currentIndex < (sectionFiles.length : Int) - 1 <;>
      simp [applyOp, handleNext, h] <;> omega
  | prev =>
    by_cases h : 0 < a.nav.currentIndex <;>
      simp [applyOp, handlePrev, h] <;> omega
  | finish => exact ⟨h0, h1⟩

/-- The index bound is preserved by any run of navigation operations. -/
theorem runOps_index_bounds (ops : List NavOp) :
    ∀ a : AppState,
      0 ≤ a.nav.currentIndex →
      a.nav.currentIndex ≤ (sectionFiles.length : Int) - 1 →
      0 ≤ (runOps ops a).nav.currentIndex
      ∧ (runOps ops a).nav.currentIndex ≤ (sectionFiles.length : Int) - 1 := by
  induction ops with
  | nil => intro a h0 h1; exact ⟨h0, h1⟩
  | cons op rest ih =>
    intro a h0 h1
    obtain ⟨g0, g1⟩ := applyOp_index_bounds op a h0 h1
    exact ih (applyOp op a) g0 g1

/-- C5: starting from the mount state (index 0), after any sequence of
advance, retreat and finish operations `currentIndex` is an integer in
`[0, N-1]` and indexes a valid entry of the fixed 15-element
`sectionFiles` list. -/
theorem c5_index_invariant :
    ∀ ops : List NavOp,
      0 ≤ (runOps ops initState).nav.currentIndex
      ∧ (runOps ops initState).nav.currentIndex ≤ (sectionFiles.length : Int) - 1
      ∧ (runOps ops initState).nav.currentIndex.toNat < sectionFiles.length
      ∧ (sectionFiles.get? (runOps ops initState).nav.currentIndex.toNat).isSome
      ∧ sectionFiles.length = 15 := by
  intro ops
  obtain ⟨h0, h1⟩ := runOps_index_bounds ops initState (by decide) (by decide)
  have hlen : sectionFiles.length = 15 := rfl
  have hlt : (runOps ops initState).nav.currentIndex.toNat < sectionFiles.length := by
    rw [hlen] at h1 ⊢
    omega
  exact ⟨h0, h1, hlt, by simp [List.getElem?_eq_getElem hlt], hlen⟩

/-- C6: the effect for the current index requests the corresponding entry of
`sectionFiles`; a transport failure or a response carrying an error field
sets the displayed content to the fixed placeholder (no case raises — 
`applyFetch` is total), and a 200 response sets it to the response's
`content` field; the other state fields are untouched. -/
theorem c6_fetch_error_placeholder :
    ∀ (s : NavState) (r : FetchResult),
      ((r = FetchResult.fail
          ∨ r = FetchResult.resp ApiResult.invalidPath
          ∨ r = FetchResult.resp ApiResult.notFound) →
        (applyFetch s r).content = errorPlaceholder)
      ∧ (∀ c, r = FetchResult.resp (ApiResult.ok c) →
          (applyFetch s r).content = c)
      ∧ (applyFetch s r).currentIndex = s.currentIndex
      ∧ (applyFetch s r).loading = s.loading
      ∧ errorPlaceholder =
          "# Error Loading Content\n\nSorry, the content could not be loaded."
      ∧ (∀ (fs : FsT) (cwd : String) (i : Nat) (e : SectionEntry),
          sectionFiles.get? i = some e →
          loadContent fs cwd (i : Int) =
            contentOfFetch (FetchResult.resp (GET fs cwd (some e.path)))) := by
  intro s r
  refine ⟨?_, ?_, rfl, rfl, rfl, ?_⟩
  · rintro (rfl | rfl | rfl) <;> rfl
  · rintro c rfl; rfl
  · intro fs cwd i e he
    rw [List.get?_eq_getElem?] at he
    simp [loadContent, he]

/-- Witness for C6 at the mount state: a failed fetch leaves the
placeholder, a 200 fetch leaves its content, and the effect at index 0
requests `/content/Section1.md`. -/
theorem c6_fetch_error_placeholder_witness :
    (applyFetch initState.nav FetchResult.fail).content = errorPlaceholder
    ∧ (applyFetch initState.nav
        (FetchResult.resp (ApiResult.ok "hi"))).content = "hi"
    ∧ loadContent (fun _ => some "hi") "/app" (0 : Int) =
        contentOfFetch (FetchResult.resp (GET (fun _ => some "hi") "/app"
          (some "/content/Section1.md"))) := by
  refine ⟨?_, ?_, ?_⟩
  · exact (c6_fetch_error_placeholder initState.nav FetchResult.fail).1
      (Or.inl rfl)
  · exact (c6_fetch_error_placeholder initState.nav
      (FetchResult.resp (ApiResult.ok "hi"))).2.1 "hi" rfl
  · exact (c6_fetch_error_placeholder initState.nav FetchResult.fail).2.2.2.2.2
      (fun _ => some "hi") "/app" 0
      { title := "1: Semantic HTML & ARIA Best Practices",
        path := "/content/Section1.md" } rfl

/-- C7: with a deterministic filesystem, navigating 0 → 1 → 0 (advance then
retreat, each fetch settling) returns the navigator to index 0 with exactly
the content shown initially at index 0; the settled content is a function
of `currentIndex` alone. -/
theorem c7_roundtrip_content :
    ∀ (fs : FsT) (cwd : String),
      ((navStep fs cwd NavOp.prev (navStep fs cwd NavOp.next
          { initState with
            nav := settleEffect fs cwd initState.nav })).nav.currentIndex = 0)
      ∧ ((navStep fs cwd NavOp.prev (navStep fs cwd NavOp.next
          { initState with
            nav := settleEffect fs cwd initState.nav })).nav.content =
        (settleEffect fs cwd initState.nav).content)
      ∧ (∀ s s' : NavState, s.currentIndex = s'.currentIndex →
          (settleEffect fs cwd s).content = (settleEffect fs cwd s').content) := by
  intro fs cwd
  refine ⟨rfl, rfl, ?_⟩
  intro s s' h
  simp [settleEffect, h]

/-- Witness for C7: two states sharing index 0 but with different displayed
content settle to the same content. -/
theorem c7_roundtrip_content_witness :
    (settleEffect (fun _ => some "m") "/app" initState.nav).content =
      (settleEffect (fun _ => some "m") "/app"
        { initState.nav with content := "zzz" }).content :=
  (c7_roundtrip_content (fun _ => some "m") "/app").2.2
    initState.nav { initState.nav with content := "zzz" } rfl

/-- C8: fetch completions are applied in resolution order with no
cancellation, so after two completions the displayed content is that of
whichever fetch resolved last, independent of the first; in the slow-2 /
fast-3 scenario the fast index-3 response is overwritten by the late
index-2 response. -/
theorem c8_last_fetch_wins :
    ∀ (s : NavState) (r1 r2 : FetchResult),
      (applyFetch (applyFetch s r1) r2).content = contentOfFetch r2
      ∧ (applyFetch (applyFetch s r2) r1).content = contentOfFetch r1
      ∧ (∀ (fs : FsT) (cwd : String),
          (applyFetch
            (applyFetch s
              (FetchResult.resp (GET fs cwd
                (some (sectionFiles.get ⟨3, by decide⟩).path))))
            (FetchResult.resp (GET fs cwd
              (some (sectionFiles.get ⟨2, by decide⟩).path)))).content =
          loadContent fs cwd (2 : Int)) := by
  intro s r1 r2
  exact ⟨rfl, rfl, fun fs cwd => rfl⟩
